import Mathlib

/-!
Verification of the slot-machine core: symbol catalog, payline catalog,
win evaluator (`WinEvaluatorV5`), game state machine (`gameStateMachine`),
and payline animation state machine (`paylineStateMachine`) together with
its manager (`PaylineStateManager`).

Monetary quantities and payout multipliers are JavaScript numbers in the
source; they are modelled as rationals (`ℚ`).  Grid cell access
`reelResults[pos.reel][pos.row]` can throw a `TypeError` when the reel
index is out of range (indexing `undefined`), and yields `undefined` when
only the row index is out of range; the former is modelled with `Except`,
the latter with `Option`.
-/

namespace SlotTest

/-- The eight symbol kinds (enum `SymbolType` in `src/types`). -/
inductive SymbolType where
  | apple | blueberry | cherry | coconut | kiwi | orange | pear | strawberry
  deriving DecidableEq, Repr

/-- A grid coordinate: `{ reel, row }`.  JavaScript numbers may be
negative, so both fields are integers. -/
structure Position where
  reel : Int
  row : Int
  deriving DecidableEq, Repr

/-- A payline: `{ id, name, positions }`. -/
structure PaylineConfig where
  id : Nat
  name : String
  positions : List Position
  deriving DecidableEq, Repr

/-- The `payoutMultipliers` record literal `{3: _, 4: _, 5: _}` of a
symbol config. -/
structure PayoutMultipliers where
  m3 : ℚ
  m4 : ℚ
  m5 : ℚ
  deriving DecidableEq, Repr

/-- `payoutMultipliers[count] || 0`: a key other than 3/4/5 is absent, so
the lookup yields `undefined` and the `|| 0` default applies. -/
def PayoutMultipliers.lookup (m : PayoutMultipliers) (count : Nat) : ℚ :=
  if count = 3 then m.m3
  else if count = 4 then m.m4
  else if count = 5 then m.m5
  else 0

/-- Per-symbol configuration (`SymbolConfig` in `src/types`). -/
structure SymbolConfig where
  type : SymbolType
  name : String
  rarity : ℚ
  payoutMultipliers : PayoutMultipliers
  imagePath : String
  deriving DecidableEq, Repr

/-- The static symbol table `SYMBOL_CONFIGS` from
`src/game/symbols/SymbolConfig.ts`. -/
def SYMBOL_CONFIGS : List SymbolConfig :=
  [ { type := .apple, name := "Apple", rarity := 0.8,
      payoutMultipliers := { m3 := 0.5, m4 := 1.0, m5 := 2.5 },
      imagePath := "/assets/images/symbols/Fruit Assets/Apple.png" },
    { type := .blueberry, name := "Blueberry", rarity := 0.7,
      payoutMultipliers := { m3 := 0.75, m4 := 1.5, m5 := 3.0 },
      imagePath := "/assets/images/symbols/Fruit Assets/BlueBerry.png" },
    { type := .cherry, name := "Cherry", rarity := 0.6,
      payoutMultipliers := { m3 := 1.0, m4 := 2.0, m5 := 4.0 },
      imagePath := "/assets/images/symbols/Fruit Assets/Cherry.png" },
    { type := .coconut, name := "Coconut", rarity := 0.5,
      payoutMultipliers := { m3 := 1.25, m4 := 2.5, m5 := 5.0 },
      imagePath := "/assets/images/symbols/Fruit Assets/Coconut.png" },
    { type := .kiwi, name := "Kiwi", rarity := 0.45,
      payoutMultipliers := { m3 := 1.5, m4 := 3.0, m5 := 6.0 },
      imagePath := "/assets/images/symbols/Fruit Assets/Kiwi.png" },
    { type := .orange, name := "Orange", rarity := 0.4,
      payoutMultipliers := { m3 := 2.0, m4 := 4.0, m5 := 8.0 },
      imagePath := "/assets/images/symbols/Fruit Assets/Orange.png" },
    { type := .pear, name := "Pear", rarity := 0.3,
      payoutMultipliers := { m3 := 2.5, m4 := 5.0, m5 := 10.0 },
      imagePath := "/assets/images/symbols/Fruit Assets/Pear.png" },
    { type := .strawberry, name := "Strawberry", rarity := 0.2,
      payoutMultipliers := { m3 := 3.0, m4 := 6.0, m5 := 12.0 },
      imagePath := "/assets/images/symbols/Fruit Assets/Strawberry.png" } ]

/-- `getSymbolConfig`: find the config for a symbol type; throws
`Symbol configuration not found` if absent from the table. -/
def getSymbolConfig (t : SymbolType) : Except String SymbolConfig :=
  match SYMBOL_CONFIGS.find? (fun c => c.type == t) with
  | some c => .ok c
  | none => .error "Symbol configuration not found"

/-- The full 20-payline catalog `ALL_PAYLINES` from
`src/game/config/paylines/Paylines.ts` (re-exported as
`PAYLINE_CONFIGS`).  Each payline lists one position per reel, reels 0–4
in order. -/
def ALL_PAYLINES : List PaylineConfig :=
  [ { id := 1, name := "Middle Line",
      positions := [⟨0,1⟩, ⟨1,1⟩, ⟨2,1⟩, ⟨3,1⟩, ⟨4,1⟩] },
    { id := 2, name := "Top Line",
      positions := [⟨0,0⟩, ⟨1,0⟩, ⟨2,0⟩, ⟨3,0⟩, ⟨4,0⟩] },
    { id := 3, name := "Bottom Line",
      positions := [⟨0,2⟩, ⟨1,2⟩, ⟨2,2⟩, ⟨3,2⟩, ⟨4,2⟩] },
    { id := 4, name := "V-Shape",
      positions := [⟨0,0⟩, ⟨1,1⟩, ⟨2,2⟩, ⟨3,1⟩, ⟨4,0⟩] },
    { id := 5, name := "Inverted V-Shape",
      positions := [⟨0,2⟩, ⟨1,1⟩, ⟨2,0⟩, ⟨3,1⟩, ⟨4,2⟩] },
    { id := 6, name := "Top-Bottom Zigzag",
      positions := [⟨0,0⟩, ⟨1,0⟩, ⟨2,1⟩, ⟨3,2⟩, ⟨4,2⟩] },
    { id := 7, name := "Bottom-Top Zigzag",
      positions := [⟨0,2⟩, ⟨1,2⟩, ⟨2,1⟩, ⟨3,0⟩, ⟨4,0⟩] },
    { id := 8, name := "W-Shape",
      positions := [⟨0,1⟩, ⟨1,0⟩, ⟨2,1⟩, ⟨3,0⟩, ⟨4,1⟩] },
    { id := 9, name := "M-Shape",
      positions := [⟨0,1⟩, ⟨1,2⟩, ⟨2,1⟩, ⟨3,0⟩, ⟨4,1⟩] },
    { id := 10, name := "Top Down Slope",
      positions := [⟨0,0⟩, ⟨1,1⟩, ⟨2,1⟩, ⟨3,1⟩, ⟨4,2⟩] },
    { id := 11, name := "Bottom Up Slope",
      positions := [⟨0,2⟩, ⟨1,1⟩, ⟨2,1⟩, ⟨3,1⟩, ⟨4,0⟩] },
    { id := 12, name := "Complex Zigzag",
      positions := [⟨0,1⟩, ⟨1,0⟩, ⟨2,0⟩, ⟨3,1⟩, ⟨4,2⟩] },
    { id := 13, name := "Early Rise",
      positions := [⟨0,1⟩, ⟨1,2⟩, ⟨2,2⟩, ⟨3,1⟩, ⟨4,0⟩] },
    { id := 14, name := "Late Drop",
      positions := [⟨0,1⟩, ⟨1,1⟩, ⟨2,0⟩, ⟨3,1⟩, ⟨4,2⟩] },
    { id := 15, name := "Late Rise",
      positions := [⟨0,1⟩, ⟨1,1⟩, ⟨2,2⟩, ⟨3,1⟩, ⟨4,0⟩] },
    { id := 16, name := "Dip Pattern",
      positions := [⟨0,0⟩, ⟨1,0⟩, ⟨2,1⟩, ⟨3,2⟩, ⟨4,1⟩] },
    { id := 17, name := "Peak Pattern",
      positions := [⟨0,2⟩, ⟨1,2⟩, ⟨2,1⟩, ⟨3,0⟩, ⟨4,1⟩] },
    { id := 18, name := "Early Peak Drop",
      positions := [⟨0,1⟩, ⟨1,0⟩, ⟨2,1⟩, ⟨3,2⟩, ⟨4,2⟩] },
    { id := 19, name := "Early Dip Rise",
      positions := [⟨0,1⟩, ⟨1,2⟩, ⟨2,1⟩, ⟨3,0⟩, ⟨4,0⟩] },
    { id := 20, name := "Late Slope Down",
      positions := [⟨0,0⟩, ⟨1,0⟩, ⟨2,0⟩, ⟨3,1⟩, ⟨4,2⟩] } ]

/-- `PAYLINE_CONFIGS = ALL_PAYLINES` (re-export in `PaylineRegistry.ts`). -/
def PAYLINE_CONFIGS : List PaylineConfig := ALL_PAYLINES

/-- `validatePaylineConfig` from `PaylineRegistry.ts`: exactly 5
positions, every reel in `[0,4]`, every row in `[0,2]`. -/
def validatePaylineConfig (payline : PaylineConfig) : Bool :=
  if payline.positions.length ≠ 5 then false
  else payline.positions.all (fun position =>
    ¬(position.reel < 0 || position.reel > 4 ||
      position.row < 0 || position.row > 2))

/-- The betting block of `GAME_CONFIG`. -/
structure BettingConfig where
  minBet : ℚ
  maxBet : ℚ
  defaultBet : ℚ
  linesPerSpin : ℚ
  deriving DecidableEq, Repr

/-- The reels block of `GAME_CONFIG`. -/
structure ReelsConfig where
  count : Nat
  rows : Nat
  symbolHeight : Nat
  symbolWidth : Nat
  deriving DecidableEq, Repr

/-- The parts of `GameConfig` the core logic reads. -/
structure GameConfig where
  reels : ReelsConfig
  paylines : List PaylineConfig
  betting : BettingConfig
  symbols : List SymbolConfig
  deriving DecidableEq, Repr

/-- The `GAME_CONFIG` object literal from `GameConfig.ts`, parametrised
by the payline catalog it embeds.  The literal performs no validation of
the catalog: whatever list is supplied becomes `paylines`. -/
def mkGameConfig (ps : List PaylineConfig) : GameConfig :=
  { reels := { count := 5, rows := 3, symbolHeight := 194, symbolWidth := 225 },
    paylines := ps,
    betting := { minBet := 1, maxBet := 100, defaultBet := 20, linesPerSpin := 20 },
    symbols := SYMBOL_CONFIGS }

/-- `GAME_CONFIG` as shipped: the catalog is `PAYLINE_CONFIGS`. -/
def GAME_CONFIG : GameConfig := mkGameConfig PAYLINE_CONFIGS

/-- A symbol grid `SymbolType[][]`, indexed `[reel][row]`. -/
abbrev Grid := List (List SymbolType)

/-- A win produced by the evaluator (`WinResult` in `src/types`).  The
`symbols` entries are `Option` because a row index past the end of a
reel column reads `undefined` in JavaScript. -/
structure WinResult where
  payline : Nat
  symbols : List (Option SymbolType)
  multiplier : ℚ
  winAmount : ℚ
  positions : List Position
  deriving DecidableEq, Repr

namespace WinEvaluatorV5

/-- One grid access `reelResults[pos.reel][pos.row]`: a reel index out
of range makes `reelResults[pos.reel]` `undefined` and indexing that
throws a `TypeError`; a row index out of range yields `undefined`. -/
def readCell (grid : Grid) (pos : Position) : Except String (Option SymbolType) :=
  match if pos.reel < 0 then none else grid.get? pos.reel.toNat with
  | none => .error "TypeError"
  | some column =>
      .ok (if pos.row < 0 then none else column.get? pos.row.toNat)

/-- The symbol-extraction loop of `evaluatePayline`: one symbol per
payline position. -/
def extractSymbols (grid : Grid) : List Position → Except String (List (Option SymbolType))
  | [] => .ok []
  | pos :: rest =>
      match readCell grid pos with
      | .error e => .error e
      | .ok s =>
          match extractSymbols grid rest with
          | .error e => .error e
          | .ok tail => .ok (s :: tail)

/-- The inner counting loop of `checkWinningCombination`: count
elements equal to `first`, stopping at the first mismatch.  The
comparison is JavaScript `===`, generic in the element type. -/
def countRun {α : Type} [DecidableEq α] (first : α) : List α → Nat
  | [] => 0
  | x :: xs => if x = first then 1 + countRun first xs else 0

/-- `checkWinningCombination`: fewer than 3 symbols is never a win;
otherwise count consecutive symbols equal to `symbols[0]` from the left
and report the first symbol with the count when the count reaches 3. -/
def checkWinningCombination {α : Type} [DecidableEq α] (symbols : List α) :
    Option (α × Nat) :=
  if symbols.length < 3 then none
  else
    match symbols with
    | [] => none
    | first :: rest =>
        let matchCount := 1 + countRun first rest
        if 3 ≤ matchCount then some (first, matchCount) else none

/-- `getSymbolConfig` applied to a possibly-`undefined` symbol: the
table lookup fails on `undefined`. -/
def getSymbolConfigOpt : Option SymbolType → Except String SymbolConfig
  | none => .error "Symbol configuration not found"
  | some t => getSymbolConfig t

/-- `betPerLine = GAME_CONFIG.betting.defaultBet / GAME_CONFIG.betting.linesPerSpin`. -/
def betPerLine : ℚ := GAME_CONFIG.betting.defaultBet / GAME_CONFIG.betting.linesPerSpin

/-- `evaluatePayline`: extract the symbols on the payline, check for a
left-anchored run of length at least 3, look up the multiplier for the
match count, and build a `WinResult` with symbols and positions
truncated to the winning prefix.  `winAmount = multiplier * betPerLine`. -/
def evaluatePayline (payline : PaylineConfig) (reelResults : Grid) :
    Except String (Option WinResult) :=
  match extractSymbols reelResults payline.positions with
  | .error e => .error e
  | .ok symbols =>
      let positions := payline.positions
      match checkWinningCombination symbols with
      | none => .ok none
      | some (symbolType, count) =>
          match getSymbolConfigOpt symbolType with
          | .error e => .error e
          | .ok symbolConfig =>
              let multiplier := symbolConfig.payoutMultipliers.lookup count
              if multiplier = 0 then
                .ok none
              else
                let winAmount := multiplier * betPerLine
                .ok (some { payline := payline.id,
                            symbols := symbols.take count,
                            multiplier := multiplier,
                            winAmount := winAmount,
                            positions := positions.take count })

/-- `isWinCompletelyContainedBy win1 win2`: every position of `win1`
appears (by reel and row) among the positions of `win2`. -/
def isWinCompletelyContainedBy (win1 win2 : WinResult) : Bool :=
  win1.positions.all (fun pos1 =>
    win2.positions.any (fun pos2 =>
      pos1.reel == pos2.reel && pos1.row == pos2.row))

/-- The loop body of `deduplicateOverlappingWins`: wins arrive in
sorted order; a win contained in a kept win is dropped, a win strictly
containing a kept win replaces the first such kept win
(`findIndex` + `splice`), and otherwise the win is appended. -/
def dedupLoop : List WinResult → List WinResult → List WinResult
  | kept, [] => kept
  | kept, cur :: rest =>
      if kept.any (fun k => isWinCompletelyContainedBy cur k) then
        dedupLoop kept rest
      else if kept.any (fun k => isWinCompletelyContainedBy k cur) then
        dedupLoop ((kept.eraseP (fun k => isWinCompletelyContainedBy k cur)) ++ [cur]) rest
      else
        dedupLoop (kept ++ [cur]) rest

/-- `deduplicateOverlappingWins`: lists of length at most 1 pass
through; otherwise sort by `winAmount` descending (stable) and run the
containment loop. -/
def deduplicateOverlappingWins (wins : List WinResult) : List WinResult :=
  if wins.length ≤ 1 then wins
  else
    dedupLoop [] (wins.mergeSort (fun a b => decide (b.winAmount ≤ a.winAmount)))

/-- The `forEach` collection loop of `evaluateWins`: evaluate every
payline, keeping the wins in catalog order. -/
def collectWins (paylines : List PaylineConfig) (grid : Grid) :
    Except String (List WinResult) :=
  match paylines with
  | [] => .ok []
  | p :: ps =>
      match evaluatePayline p grid with
      | .error e => .error e
      | .ok w =>
          match collectWins ps grid with
          | .error e => .error e
          | .ok rest =>
              match w with
              | some win => .ok (win :: rest)
              | none => .ok rest

/-- `evaluateWins`: evaluate all paylines of `GAME_CONFIG`, then remove
overlapping wins. -/
def evaluateWins (reelResults : Grid) : Except String (List WinResult) :=
  match collectWins GAME_CONFIG.paylines reelResults with
  | .error e => .error e
  | .ok allWins => .ok (deduplicateOverlappingWins allWins)

/-- `calculateTotalWin`: sum of the win amounts. -/
def calculateTotalWin (wins : List WinResult) : ℚ :=
  wins.foldl (fun total win => total + win.winAmount) 0

end WinEvaluatorV5

end SlotTest

namespace SlotTest

/-! ## Game state machine (`GameStateMachine.ts`)

The xstate machine `gameStateMachine` is embedded as a pure step
function on `GState × GameContext`.  The transient `evaluating` state
(`always` transitions) is resolved inside the `SPIN_COMPLETE` step, so
the observable states are `idle`, `spinning` and `celebrating`.  The
2000 ms `after` timer of `celebrating` is modelled as the explicit
event `celebrationTimeout`.  Events not handled in the current state
are ignored (xstate semantics): the configuration is unchanged. -/

/-- A resolved spin (`SpinResult` in `src/types`). -/
structure SpinResult where
  reelResults : Grid
  wins : List WinResult
  totalWin : ℚ
  deriving DecidableEq, Repr

/-- `GameContext`. -/
structure GameContext where
  balance : ℚ
  currentBet : ℚ
  lastWin : ℚ
  totalWin : ℚ
  reelResults : Option SpinResult
  isSpinning : Bool
  canSpin : Bool
  deriving DecidableEq, Repr

/-- `initialContext`. -/
def initialContext : GameContext :=
  { balance := 1000, currentBet := 25, lastWin := 0, totalWin := 0,
    reelResults := none, isSpinning := false, canSpin := true }

/-- The observable states of `gameStateMachine`. -/
inductive GState where
  | idle | spinning | celebrating
  deriving DecidableEq, Repr

/-- `GameEvent`; `celebrationTimeout` stands for the machine-internal
`after: 2000` delay event of the `celebrating` state. -/
inductive GameEvent where
  | spin
  | increaseBet
  | decreaseBet
  | setBet (amount : ℚ)
  | spinComplete (result : SpinResult)
  | winCelebrationComplete
  | resetGame
  | celebrationTimeout
  deriving Repr

namespace GameMachine

/-- Guard `hasEnoughBalance`. -/
def hasEnoughBalance (context : GameContext) : Prop :=
  context.balance ≥ context.currentBet

instance (context : GameContext) : Decidable (hasEnoughBalance context) := by
  unfold hasEnoughBalance; infer_instance

/-- Guard `hasWins`. -/
def hasWins (context : GameContext) : Prop :=
  context.reelResults ≠ none ∧
    ∀ r, context.reelResults = some r → r.totalWin > 0

instance (context : GameContext) : Decidable (hasWins context) := by
  unfold hasWins; infer_instance

/-- Guard `canIncreaseBet`. -/
def canIncreaseBet (context : GameContext) : Prop :=
  context.balance ≥ context.currentBet + 5

instance (context : GameContext) : Decidable (canIncreaseBet context) := by
  unfold canIncreaseBet; infer_instance

/-- Guard `canDecreaseBet`. -/
def canDecreaseBet (context : GameContext) : Prop :=
  context.currentBet > 1

instance (context : GameContext) : Decidable (canDecreaseBet context) := by
  unfold canDecreaseBet; infer_instance

/-- Action `resetSpinFlags` (entry of `idle`). -/
def resetSpinFlags (context : GameContext) : GameContext :=
  { context with
    canSpin := decide (context.balance ≥ context.currentBet),
    isSpinning := false }

/-- Action `deductBet` (entry of `spinning`). -/
def deductBet (context : GameContext) : GameContext :=
  { context with
    balance := context.balance - context.currentBet,
    canSpin := false,
    isSpinning := true }

/-- Action `addWinnings` (entry of `celebrating`):
`winAmount = context.reelResults?.totalWin || 0`. -/
def addWinnings (context : GameContext) : GameContext :=
  let winAmount := match context.reelResults with
    | some r => r.totalWin
    | none => 0
  { context with
    balance := context.balance + winAmount,
    lastWin := winAmount,
    totalWin := context.totalWin + winAmount }

/-- Action `updateSpinResult`. -/
def updateSpinResult (result : SpinResult) (context : GameContext) : GameContext :=
  { context with reelResults := some result }

/-- Action `resetSpinState`. -/
def resetSpinState (context : GameContext) : GameContext :=
  { context with
    isSpinning := false,
    canSpin := decide (context.balance ≥ context.currentBet),
    reelResults := none }

/-- Action `increaseBet`. -/
def increaseBet (context : GameContext) : GameContext :=
  let newBet := context.currentBet + 5
  { context with
    currentBet := newBet,
    canSpin := decide (context.balance ≥ newBet) }

/-- Action `decreaseBet`: `newBet = Math.max(1, currentBet - 5)`. -/
def decreaseBet (context : GameContext) : GameContext :=
  let newBet := max 1 (context.currentBet - 5)
  { context with
    currentBet := newBet,
    canSpin := decide (context.balance ≥ newBet) }

/-- Action `setBet`: no clamping, the event amount is stored as is. -/
def setBet (amount : ℚ) (context : GameContext) : GameContext :=
  { context with
    currentBet := amount,
    canSpin := decide (context.balance ≥ amount) }

/-- A machine configuration: state plus context. -/
abbrev GConfig := GState × GameContext

/-- Resolution of the transient `evaluating` state reached by
`SPIN_COMPLETE`: with wins go to `celebrating` (entry `addWinnings`),
otherwise go to `idle` (transition action `resetSpinState`, then the
`idle` entry action `resetSpinFlags`). -/
def resolveEvaluating (context : GameContext) : GConfig :=
  if hasWins context then
    (GState.celebrating, addWinnings context)
  else
    (GState.idle, resetSpinFlags (resetSpinState context))

/-- One step of `gameStateMachine`.  Unhandled events leave the
configuration unchanged. -/
def step (cfg : GConfig) (event : GameEvent) : GConfig :=
  match cfg, event with
  | (GState.idle, context), GameEvent.spin =>
      if hasEnoughBalance context then (GState.spinning, deductBet context) else cfg
  | (GState.idle, context), GameEvent.increaseBet =>
      if canIncreaseBet context then (GState.idle, increaseBet context) else cfg
  | (GState.idle, context), GameEvent.decreaseBet =>
      if canDecreaseBet context then (GState.idle, decreaseBet context) else cfg
  | (GState.idle, context), GameEvent.setBet amount =>
      (GState.idle, setBet amount context)
  | (GState.idle, _), GameEvent.resetGame =>
      (GState.idle, initialContext)
  | (GState.spinning, context), GameEvent.spinComplete result =>
      resolveEvaluating (updateSpinResult result context)
  | (GState.celebrating, context), GameEvent.winCelebrationComplete =>
      (GState.idle, resetSpinFlags (resetSpinState context))
  | (GState.celebrating, context), GameEvent.celebrationTimeout =>
      (GState.idle, resetSpinFlags (resetSpinState context))
  | _, _ => cfg

/-- The machine's starting configuration: initial state `idle`, whose
entry action runs on actor start. -/
def initConfig : GConfig := (GState.idle, resetSpinFlags initialContext)

/-- Run a sequence of events. -/
def run (cfg : GConfig) (events : List GameEvent) : GConfig :=
  events.foldl step cfg

end GameMachine

end SlotTest

namespace SlotTest

/-! ## Payline animation state machine (`PaylineStateMachine`, exported
through `src/game/state/index.ts`) and its manager
(`PaylineStateManager.ts`)

The xstate machine `paylineStateMachine` is embedded as a pure step
function.  The transient states `evaluationComplete` and `complete`
(`always` transitions) are resolved inside the steps that reach them,
so the observable states are `idle`, `evaluating`,
`singleWinAnimation`, `showingAllWins` and `animatingIndividualWins`.
Completions of the invoked actors are modelled as explicit events:
`showAllDone` for the `showingAllWins` timer actor and
`evaluationDone` for the evaluator actor. -/

/-- `PaylineContext`. -/
structure PaylineContext where
  winResults : List WinResult
  currentWinIndex : Nat
  isAnimating : Bool
  skipRequested : Bool
  animationSpeed : ℚ
  showAllPaylines : Bool
  evaluationProgress : Nat
  totalPaylines : Nat
  evaluatedPaylines : List PaylineConfig
  reelResults : Option Grid
  deriving DecidableEq, Repr

/-- The observable states of `paylineStateMachine`. -/
inductive PState where
  | idle | evaluating | singleWinAnimation | showingAllWins | animatingIndividualWins
  deriving DecidableEq, Repr

/-- `PaylineEvent`, plus the two invoked-actor completions. -/
inductive PaylineEvent where
  | evaluatePaylines (reelResults : Grid)
  | setWinsAndAnimate (wins : List WinResult)
  | skipAnimation
  | reset
  | setAnimationSpeed (speed : ℚ)
  | toggleShowAll
  | animationComplete
  | nextWin
  | showAllDone
  | evaluationDone (wins : List WinResult)
  deriving Repr

namespace PaylineMachine

/-- The initial `context` literal of the machine. -/
def initialPaylineContext : PaylineContext :=
  { winResults := [], currentWinIndex := 0, isAnimating := false,
    skipRequested := false, animationSpeed := 1, showAllPaylines := false,
    evaluationProgress := 0, totalPaylines := 0, evaluatedPaylines := [],
    reelResults := none }

/-- Action `resetContext`: clears everything except `animationSpeed`
and `showAllPaylines`, which the assign does not mention. -/
def resetContext (context : PaylineContext) : PaylineContext :=
  { context with
    winResults := [], currentWinIndex := 0, isAnimating := false,
    skipRequested := false, evaluationProgress := 0, totalPaylines := 0,
    evaluatedPaylines := [], reelResults := none }

/-- Action `startEvaluation`. -/
def startEvaluation (reelResults : Grid) (context : PaylineContext) : PaylineContext :=
  { context with
    reelResults := some reelResults, isAnimating := true,
    skipRequested := false }

/-- Action `setWins`. -/
def setWins (wins : List WinResult) (context : PaylineContext) : PaylineContext :=
  { context with winResults := wins, isAnimating := true, skipRequested := false }

/-- Action `setEvaluationResults`. -/
def setEvaluationResults (wins : List WinResult) (context : PaylineContext) : PaylineContext :=
  { context with winResults := wins, evaluatedPaylines := [] }

/-- Action `startAnimation` (entry of `evaluating`). -/
def startAnimation (context : PaylineContext) : PaylineContext :=
  { context with isAnimating := true, skipRequested := false }

/-- Action `startSingleWinAnimation` (entry of `singleWinAnimation`). -/
def startSingleWinAnimation (context : PaylineContext) : PaylineContext :=
  { context with isAnimating := true }

/-- Action `startShowAllAnimation` (entry of `showingAllWins`). -/
def startShowAllAnimation (context : PaylineContext) : PaylineContext :=
  { context with isAnimating := true }

/-- Action `prepareWinCycling`. -/
def prepareWinCycling (context : PaylineContext) : PaylineContext :=
  { context with currentWinIndex := 0 }

/-- Action `resetCurrentWinIndex` (entry of `animatingIndividualWins`). -/
def resetCurrentWinIndex (context : PaylineContext) : PaylineContext :=
  { context with currentWinIndex := 0 }

/-- Action `moveToNextWin`. -/
def moveToNextWin (context : PaylineContext) : PaylineContext :=
  { context with currentWinIndex := context.currentWinIndex + 1 }

/-- Action `completeAnimation` (entry of `complete`). -/
def completeAnimation (context : PaylineContext) : PaylineContext :=
  { context with isAnimating := false }

/-- Action `requestSkip`. -/
def requestSkip (context : PaylineContext) : PaylineContext :=
  { context with skipRequested := true }

/-- Action `setAnimationSpeed`: `Math.max(0.1, Math.min(5, event.speed))`. -/
def setAnimationSpeedAction (speed : ℚ) (context : PaylineContext) : PaylineContext :=
  { context with animationSpeed := max (1/10) (min 5 speed) }

/-- Action `toggleShowAll`. -/
def toggleShowAll (context : PaylineContext) : PaylineContext :=
  { context with showAllPaylines := !context.showAllPaylines }

/-- A machine configuration. -/
abbrev PConfig := PState × PaylineContext

/-- Resolution of the transient `evaluationComplete` state: one win
dispatches to `singleWinAnimation`, several to `showingAllWins`, none
back to `idle` (transition action `resetContext` plus the `idle` entry
action `resetContext`). -/
def resolveEvaluationComplete (context : PaylineContext) : PConfig :=
  if context.winResults.length = 1 then
    (PState.singleWinAnimation, startSingleWinAnimation context)
  else if context.winResults.length > 1 then
    (PState.showingAllWins, startShowAllAnimation context)
  else
    (PState.idle, resetContext (resetContext context))

/-- Resolution of the transient `complete` state: entry action
`completeAnimation`, then the `always` transition to `idle` with
transition action `resetContext` and the `idle` entry action
`resetContext`. -/
def resolveComplete (context : PaylineContext) : PConfig :=
  (PState.idle, resetContext (resetContext (completeAnimation context)))

/-- One step of `paylineStateMachine`.  Unhandled events (including
`RESET`, which no state handles) leave the configuration unchanged.
The `NEXT_WIN` self-transition of `animatingIndividualWins` has an
explicit target, so it re-enters the state: the transition action
`moveToNextWin` runs first, then the entry action
`resetCurrentWinIndex`. -/
def pStep (cfg : PConfig) (event : PaylineEvent) : PConfig :=
  match cfg, event with
  | (PState.idle, context), PaylineEvent.evaluatePaylines g =>
      (PState.evaluating, startAnimation (startEvaluation g context))
  | (PState.idle, context), PaylineEvent.setWinsAndAnimate wins =>
      resolveEvaluationComplete (setWins wins context)
  | (PState.idle, context), PaylineEvent.setAnimationSpeed speed =>
      (PState.idle, setAnimationSpeedAction speed context)
  | (PState.idle, context), PaylineEvent.toggleShowAll =>
      (PState.idle, toggleShowAll context)
  | (PState.evaluating, context), PaylineEvent.skipAnimation =>
      (PState.idle, resetContext (resetContext (requestSkip context)))
  | (PState.evaluating, context), PaylineEvent.evaluationDone wins =>
      resolveEvaluationComplete (setEvaluationResults wins context)
  | (PState.singleWinAnimation, context), PaylineEvent.animationComplete =>
      resolveComplete context
  | (PState.singleWinAnimation, context), PaylineEvent.skipAnimation =>
      resolveComplete (requestSkip context)
  | (PState.showingAllWins, context), PaylineEvent.showAllDone =>
      (PState.animatingIndividualWins, resetCurrentWinIndex (prepareWinCycling context))
  | (PState.showingAllWins, context), PaylineEvent.skipAnimation =>
      resolveComplete (requestSkip context)
  | (PState.animatingIndividualWins, context), PaylineEvent.animationComplete =>
      resolveComplete context
  | (PState.animatingIndividualWins, context), PaylineEvent.nextWin =>
      (PState.animatingIndividualWins, resetCurrentWinIndex (moveToNextWin context))
  | (PState.animatingIndividualWins, context), PaylineEvent.skipAnimation =>
      resolveComplete (requestSkip context)
  | _, _ => cfg

/-- The machine's starting configuration: initial state `idle`, whose
entry action `resetContext` runs on actor start. -/
def pInit : PConfig := (PState.idle, resetContext initialPaylineContext)

/-- Run a sequence of events. -/
def pRun (cfg : PConfig) (events : List PaylineEvent) : PConfig :=
  events.foldl pStep cfg

end PaylineMachine

namespace PaylineManager

open PaylineMachine

/-- The observable state of a `PaylineStateManager`: the wrapped actor
configuration, the `currentWins` field, and how many times each of the
registered `onStart` / `onEnd` / `onSkipped` callbacks has fired. -/
structure ManagerState where
  machine : PConfig
  currentWins : List WinResult
  startCount : Nat
  endCount : Nat
  skippedCount : Nat
  deriving Repr

/-- The subscriber `handleStateChange`, run on the stable snapshot
after each event the actor processes.  On `idle` it clears
`currentWins` when non-empty and then always runs `handleAnimationEnd`
(the call sits outside the `if`), firing the `onEnd` callbacks; the
animation states only start display work, whose completion is
delivered later as a separate actor event. -/
def handleStateChange (s : ManagerState) : ManagerState :=
  match s.machine.1 with
  | PState.idle => { s with currentWins := [], endCount := s.endCount + 1 }
  | _ => s

/-- Deliver one event to the wrapped actor: step the machine, then run
the subscriber on the resulting snapshot. -/
def managerSend (s : ManagerState) (event : PaylineEvent) : ManagerState :=
  handleStateChange { s with machine := pStep s.machine event }

/-- `setWinsAndAnimate`: store `currentWins`; an empty list only clears
the display (no callback, no actor event); otherwise fire the
`onStart` callbacks and send `SET_WINS_AND_ANIMATE`. -/
def setWinsAndAnimate (s : ManagerState) (wins : List WinResult) : ManagerState :=
  let s := { s with currentWins := wins }
  if wins.isEmpty then s
  else managerSend { s with startCount := s.startCount + 1 }
    (PaylineEvent.setWinsAndAnimate wins)

/-- `skipAnimation`: send `SKIP_ANIMATION` to the actor, then fire the
`onSkipped` callbacks unconditionally. -/
def skipAnimation (s : ManagerState) : ManagerState :=
  let s := managerSend s PaylineEvent.skipAnimation
  { s with skippedCount := s.skippedCount + 1 }

/-- The resumption of `handleSingleWinAnimation` after its awaited win
display resolves: send `ANIMATION_COMPLETE` to the actor. -/
def displayDone (s : ManagerState) : ManagerState :=
  managerSend s PaylineEvent.animationComplete

/-- A scheduled external action on a `PaylineStateManager`: a caller
invocation or an asynchronous completion. -/
inductive MAction where
  | setWins (wins : List WinResult)
  | userSkip
  | displayDone
  | showAllTimerDone
  deriving Repr

/-- Apply one scheduled action. -/
def mStep (s : ManagerState) : MAction → ManagerState
  | MAction.setWins wins => setWinsAndAnimate s wins
  | MAction.userSkip => skipAnimation s
  | MAction.displayDone => displayDone s
  | MAction.showAllTimerDone => managerSend s PaylineEvent.showAllDone

/-- A manager fresh from its constructor: the actor just started (the
initial `idle` notification fires before any callback is registered,
so no counter moves). -/
def mInit : ManagerState :=
  { machine := pInit, currentWins := [], startCount := 0, endCount := 0,
    skippedCount := 0 }

/-- Run a schedule of actions. -/
def mRun (s : ManagerState) (actions : List MAction) : ManagerState :=
  actions.foldl mStep s

end PaylineManager

end SlotTest

namespace SlotTest

open WinEvaluatorV5

/-- Decidable equality for `Except`, needed to decide concrete runs of
the evaluator. -/
instance {e a : Type} [DecidableEq e] [DecidableEq a] :
    DecidableEq (Except e a) := fun x y =>
  match x, y with
  | .error u, .error v =>
      if h : u = v then isTrue (by rw [h]) else isFalse (by simp [h])
  | .ok u, .ok v =>
      if h : u = v then isTrue (by rw [h]) else isFalse (by simp [h])
  | .error _, .ok _ => isFalse (by simp)
  | .ok _, .error _ => isFalse (by simp)

/-! ## Concrete fixtures -/

/-- Payline 1, the middle straight line (head of the catalog). -/
def middleLinePayline : PaylineConfig :=
  { id := 1, name := "Middle Line",
    positions := [⟨0,1⟩, ⟨1,1⟩, ⟨2,1⟩, ⟨3,1⟩, ⟨4,1⟩] }

/-- A 5×3 grid whose middle row reads A,A,B,A,A
(cherry, cherry, blueberry, cherry, cherry); columns are `[top, middle,
bottom]`. -/
def gridAABAA : Grid :=
  [ [.apple, .cherry, .kiwi],
    [.apple, .cherry, .kiwi],
    [.apple, .blueberry, .kiwi],
    [.apple, .cherry, .kiwi],
    [.apple, .cherry, .kiwi] ]

/-- A 5×3 grid whose middle row reads A,A,A,A,B (cherry ×4 then
blueberry); the top and bottom rows alternate symbols so that no other
payline forms a run of 3. -/
def gridAAAAB : Grid :=
  [ [.apple, .cherry, .kiwi],
    [.blueberry, .cherry, .orange],
    [.apple, .cherry, .kiwi],
    [.blueberry, .cherry, .orange],
    [.apple, .blueberry, .kiwi] ]

/-- The single win the evaluator produces on `gridAAAAB`: four cherries
on payline 1, truncated to the winning prefix. -/
def cherryWin : WinResult :=
  { payline := 1,
    symbols := [some .cherry, some .cherry, some .cherry, some .cherry],
    multiplier := 2, winAmount := 2,
    positions := [⟨0,1⟩, ⟨1,1⟩, ⟨2,1⟩, ⟨3,1⟩] }

/-! ## Left-anchored run counting -/

/-- The counting loop counts exactly the longest prefix equal to
`first`: every index below the count holds `first`, and the count is
either the whole list or stops at a mismatch. -/
theorem countRun_spec {α : Type} [DecidableEq α] (first : α) (l : List α) :
    (∀ i, i < countRun first l → l.get? i = some first) ∧
    (countRun first l = l.length ∨
      ∃ x, l.get? (countRun first l) = some x ∧ x ≠ first) := by
  induction l with
  | nil =>
      refine ⟨fun i h => ?_, Or.inl rfl⟩
      simp [countRun] at h
  | cons x xs ih =>
      by_cases hx : x = first
      · have hcr : countRun first (x :: xs) = countRun first xs + 1 := by
          simp [countRun, hx, Nat.add_comm]
        constructor
        · intro i hi
          rw [hcr] at hi
          cases i with
          | zero => simp [hx]
          | succ n =>
              have hn : n < countRun first xs := by omega
              simpa using ih.1 n hn
        · rcases ih.2 with h | ⟨y, hy, hne⟩
          · left; rw [hcr, h]; simp
          · right
            exact ⟨y, by rw [hcr]; simpa using hy, hne⟩
      · refine ⟨fun i hi => ?_, Or.inr ⟨x, ?_, hx⟩⟩
        · simp [countRun, hx] at hi
        · simp [countRun, hx]

/-- Unfolding equation of `checkWinningCombination` on a non-empty
list. -/
theorem checkWinningCombination_cons {α : Type} [DecidableEq α]
    (first : α) (rest : List α) :
    checkWinningCombination (first :: rest) =
      if (first :: rest).length < 3 then none
      else if 3 ≤ 1 + countRun first rest
      then some (first, 1 + countRun first rest) else none := rfl

/-- Inversion for a successful `checkWinningCombination`: the reported
symbol heads the list, the count is at least 3, every position below
the count matches, and the count is maximal (end of list or mismatch). -/
theorem checkWinningCombination_eq_some {α : Type} [DecidableEq α]
    {symbols : List α} {s : α} {c : Nat}
    (h : checkWinningCombination symbols = some (s, c)) :
    symbols.get? 0 = some s ∧ 3 ≤ c ∧
    (∀ i, i < c → symbols.get? i = some s) ∧
    (c = symbols.length ∨ ∃ x, symbols.get? c = some x ∧ x ≠ s) := by
  match symbols with
  | [] => simp [checkWinningCombination] at h
  | first :: rest =>
      rw [checkWinningCombination_cons] at h
      split at h
      · simp at h
      · split at h
        · rename_i hge
          rw [Option.some_inj, Prod.mk.injEq] at h
          obtain ⟨rfl, rfl⟩ := h
          refine ⟨by simp, hge, ?_, ?_⟩
          · intro i hi
            cases i with
            | zero => simp
            | succ n =>
                have hn : n < countRun first rest := by omega
                simpa using (countRun_spec first rest).1 n hn
          · rcases (countRun_spec first rest).2 with heq | ⟨x, hx, hne⟩
            · left
              rw [heq]
              simp [List.length_cons]
              omega
            · right
              refine ⟨x, ?_, hne⟩
              rw [Nat.add_comm 1 (countRun first rest)]
              simpa using hx
        · simp at h

/-- A left-anchored run shorter than 3 is never a win. -/
theorem checkWinningCombination_short {α : Type} [DecidableEq α]
    (first : α) (rest : List α) (h : 1 + countRun first rest < 3) :
    checkWinningCombination (first :: rest) = none := by
  rw [checkWinningCombination_cons]
  split
  · rfl
  · split
    · omega
    · rfl

/-- When the extracted symbols contain no winning combination, the
payline produces no `WinResult`. -/
theorem evaluatePayline_none_of_check_none
    (payline : PaylineConfig) (grid : Grid) (syms : List (Option SymbolType))
    (hx : extractSymbols grid payline.positions = .ok syms)
    (hc : checkWinningCombination syms = none) :
    evaluatePayline payline grid = .ok none := by
  unfold evaluatePayline
  rw [hx]
  simp [hc]

end SlotTest

namespace SlotTest

open WinEvaluatorV5

/-- C3: for every payline the match count is the length of the maximal
left-anchored contiguous run equal to the symbol on reel 0 (counting
stops at the first mismatch); a match count below 3 produces no
`WinResult`; and the payline reading A,A,B,A,A (middle row of
`gridAABAA` on payline 1) produces no win. -/
theorem C3_left_anchored_matching :
    (∀ (symbols : List (Option SymbolType)) (s : Option SymbolType) (c : Nat),
        checkWinningCombination symbols = some (s, c) →
        symbols.get? 0 = some s ∧ 3 ≤ c ∧
        (∀ i, i < c → symbols.get? i = some s) ∧
        (c = symbols.length ∨ ∃ x, symbols.get? c = some x ∧ x ≠ s)) ∧
    (∀ (first : Option SymbolType) (rest : List (Option SymbolType)),
        1 + countRun first rest < 3 →
        checkWinningCombination (first :: rest) = none) ∧
    (∀ (payline : PaylineConfig) (grid : Grid) (syms : List (Option SymbolType)),
        extractSymbols grid payline.positions = .ok syms →
        checkWinningCombination syms = none →
        evaluatePayline payline grid = .ok none) ∧
    PAYLINE_CONFIGS.get? 0 = some middleLinePayline ∧
    evaluatePayline middleLinePayline gridAABAA = .ok none := by
  refine ⟨fun symbols s c h => checkWinningCombination_eq_some h,
    fun first rest h => checkWinningCombination_short first rest h,
    fun payline grid syms hx hc =>
      evaluatePayline_none_of_check_none payline grid syms hx hc,
    rfl, rfl⟩

/-- Witness for C3 at the concrete list cherry, cherry, cherry,
blueberry: the evaluator reports the run symbol and count 3. -/
theorem C3_left_anchored_matching_witness :
    ([some SymbolType.cherry, some SymbolType.cherry, some SymbolType.cherry,
      some SymbolType.blueberry] : List (Option SymbolType)).get? 0 =
        some (some SymbolType.cherry) ∧ 3 ≤ 3 ∧
    (∀ i, i < 3 →
      ([some SymbolType.cherry, some SymbolType.cherry, some SymbolType.cherry,
        some SymbolType.blueberry] : List (Option SymbolType)).get? i =
          some (some SymbolType.cherry)) ∧
    (3 = ([some SymbolType.cherry, some SymbolType.cherry, some SymbolType.cherry,
      some SymbolType.blueberry] : List (Option SymbolType)).length ∨
      ∃ x, ([some SymbolType.cherry, some SymbolType.cherry, some SymbolType.cherry,
        some SymbolType.blueberry] : List (Option SymbolType)).get? 3 = some x ∧
        x ≠ some SymbolType.cherry) :=
  C3_left_anchored_matching.1
    [some SymbolType.cherry, some SymbolType.cherry, some SymbolType.cherry,
      some SymbolType.blueberry] (some SymbolType.cherry) 3 rfl

end SlotTest

namespace SlotTest

open WinEvaluatorV5

/-- Every win the evaluator produces computes its amount as
`multiplier * betPerLine`. -/
theorem evaluatePayline_winAmount_eq (payline : PaylineConfig) (grid : Grid)
    (w : WinResult) (h : evaluatePayline payline grid = .ok (some w)) :
    w.winAmount = w.multiplier * betPerLine := by
  unfold evaluatePayline at h
  split at h
  · simp at h
  · split at h
    · simp at h
    · split at h
      · simp at h
      · dsimp only at h
        split at h
        · simp at h
        · rw [Except.ok.injEq, Option.some.injEq] at h
          subst h
          rfl

unseal Rat.ofScientific Rat.mul Rat.inv Rat.add Rat.sub in
/-- C1 counterexample: on the grid whose middle row reads A,A,A,A,B
(cherry payouts 3 to 1.0, 4 to 2.0, 5 to 4.0) the evaluator returns
exactly one win with multiplier 2.0, but its amount is 2, not the
20 the claim predicts for `multiplier × bet` at bet 10 — the bet never
enters the computation. -/
theorem C1_winAmount_counterexample :
    evaluateWins gridAAAAB = .ok [cherryWin] ∧
    cherryWin.multiplier = 2 ∧
    cherryWin.winAmount = 2 ∧
    cherryWin.winAmount ≠ 2 * 10 := by
  refine ⟨by decide, rfl, rfl, by decide⟩

unseal Rat.ofScientific Rat.mul Rat.inv Rat.add Rat.sub in
/-- C1 (amended): every `WinResult` has
`winAmount = multiplier × (defaultBet / linesPerSpin)`; that factor
equals 1 with the shipped config, so the bet amount never enters; the
A,A,A,A,B grid yields exactly one `WinResult`, with multiplier 2.0 and
`winAmount` 2.0. -/
theorem C1_winAmount_formula :
    (∀ (payline : PaylineConfig) (grid : Grid) (w : WinResult),
        evaluatePayline payline grid = .ok (some w) →
        w.winAmount = w.multiplier * betPerLine) ∧
    betPerLine = 1 ∧
    evaluateWins gridAAAAB = .ok [cherryWin] ∧
    cherryWin.multiplier = 2 ∧ cherryWin.winAmount = 2 := by
  refine ⟨evaluatePayline_winAmount_eq, by decide, by decide, rfl, rfl⟩

unseal Rat.ofScientific Rat.mul Rat.inv Rat.add Rat.sub in
/-- Witness for C1 at payline 1 on the A,A,A,A,B grid. -/
theorem C1_winAmount_formula_witness :
    cherryWin.winAmount = cherryWin.multiplier * betPerLine :=
  C1_winAmount_formula.1 middleLinePayline gridAAAAB cherryWin (by decide)

end SlotTest

namespace SlotTest

namespace GameMachine

/-- The idle-state consistency property of C4: whenever the machine
rests in `idle`, `canSpin` equals `balance ≥ currentBet`. -/
def IdleConsistent (cfg : GConfig) : Prop :=
  cfg.1 = GState.idle →
    cfg.2.canSpin = decide (cfg.2.balance ≥ cfg.2.currentBet)

/-- Every step of the machine preserves idle-state consistency: each
transition that lands in `idle` recomputes `canSpin` from the final
balance and bet. -/
theorem step_idleConsistent (cfg : GConfig) (e : GameEvent)
    (h : IdleConsistent cfg) : IdleConsistent (step cfg e) := by
  obtain ⟨st, ctx⟩ := cfg
  cases st with
  | idle =>
      cases e with
      | spin =>
          by_cases hg : hasEnoughBalance ctx
          · simp [step, hg, IdleConsistent]
          · simpa [step, hg] using h
      | increaseBet =>
          by_cases hg : canIncreaseBet ctx
          · simp [step, hg, IdleConsistent, increaseBet]
          · simpa [step, hg] using h
      | decreaseBet =>
          by_cases hg : canDecreaseBet ctx
          · simp [step, hg, IdleConsistent, decreaseBet]
          · simpa [step, hg] using h
      | setBet amount => simp [step, IdleConsistent, setBet]
      | resetGame =>
          intro _
          show initialContext.canSpin =
            decide (initialContext.balance ≥ initialContext.currentBet)
          decide
      | spinComplete r => simpa [step] using h
      | winCelebrationComplete => simpa [step] using h
      | celebrationTimeout => simpa [step] using h
  | spinning =>
      cases e with
      | spinComplete r =>
          by_cases hw : hasWins (updateSpinResult r ctx)
          · simp [step, resolveEvaluating, hw, IdleConsistent]
          · simp [step, resolveEvaluating, hw, IdleConsistent,
              resetSpinFlags, resetSpinState]
      | spin => simpa [step] using h
      | increaseBet => simpa [step] using h
      | decreaseBet => simpa [step] using h
      | setBet amount => simpa [step] using h
      | resetGame => simpa [step] using h
      | winCelebrationComplete => simpa [step] using h
      | celebrationTimeout => simpa [step] using h
  | celebrating =>
      cases e with
      | winCelebrationComplete =>
          simp [step, IdleConsistent, resetSpinFlags, resetSpinState]
      | celebrationTimeout =>
          simp [step, IdleConsistent, resetSpinFlags, resetSpinState]
      | spin => simpa [step] using h
      | increaseBet => simpa [step] using h
      | decreaseBet => simpa [step] using h
      | setBet amount => simpa [step] using h
      | resetGame => simpa [step] using h
      | spinComplete r => simpa [step] using h

/-- Idle-state consistency holds along every run from the initial
configuration. -/
theorem run_idleConsistent (events : List GameEvent) :
    IdleConsistent (run initConfig events) := by
  suffices h : ∀ cfg, IdleConsistent cfg → IdleConsistent (run cfg events) by
    exact h initConfig (fun _ => rfl)
  induction events with
  | nil => exact fun cfg h => h
  | cons e es ih => exact fun cfg h => ih (step cfg e) (step_idleConsistent cfg e h)

end GameMachine

open GameMachine

/-- C4: after any event sequence from the initial configuration,
whenever the game state machine is in `idle`, `canSpin` equals
`balance ≥ currentBet`. -/
theorem C4_canSpin_invariant (events : List GameEvent)
    (h : (run initConfig events).1 = GState.idle) :
    (run initConfig events).2.canSpin =
      decide ((run initConfig events).2.balance ≥
        (run initConfig events).2.currentBet) :=
  run_idleConsistent events h

unseal Rat.ofScientific Rat.mul Rat.inv Rat.add Rat.sub in
/-- Witness for C4 after an `INCREASE_BET` event. -/
theorem C4_canSpin_invariant_witness :
    (run initConfig [GameEvent.increaseBet]).1 = GState.idle ∧
    (run initConfig [GameEvent.increaseBet]).2.canSpin =
      decide ((run initConfig [GameEvent.increaseBet]).2.balance ≥
        (run initConfig [GameEvent.increaseBet]).2.currentBet) :=
  ⟨by decide, C4_canSpin_invariant [GameEvent.increaseBet] (by decide)⟩

/-- C5: a `SPIN` in any non-`idle` state, or in `idle` with
`balance < currentBet`, leaves the whole configuration unchanged; and
two consecutive `SPIN`s from a spinnable `idle` state deduct the bet
exactly once — the second is ignored. -/
theorem C5_spin_idempotent :
    (∀ cfg : GConfig, cfg.1 ≠ GState.idle → step cfg GameEvent.spin = cfg) ∧
    (∀ ctx : GameContext, ctx.balance < ctx.currentBet →
        step (GState.idle, ctx) GameEvent.spin = (GState.idle, ctx)) ∧
    (∀ ctx : GameContext, ctx.balance ≥ ctx.currentBet →
        run (GState.idle, ctx) [GameEvent.spin, GameEvent.spin] =
          (GState.spinning, deductBet ctx) ∧
        (deductBet ctx).balance = ctx.balance - ctx.currentBet) := by
  refine ⟨?_, ?_, ?_⟩
  · rintro ⟨st, ctx⟩ hst
    cases st with
    | idle => exact absurd rfl hst
    | spinning => rfl
    | celebrating => rfl
  · intro ctx hlt
    have hg : ¬ hasEnoughBalance ctx := by
      simp [hasEnoughBalance]
      exact hlt
    simp [step, hg]
  · intro ctx hge
    have hg : hasEnoughBalance ctx := hge
    constructor
    · show step (step (GState.idle, ctx) GameEvent.spin) GameEvent.spin = _
      rw [show step (GState.idle, ctx) GameEvent.spin =
        (GState.spinning, deductBet ctx) from by simp [step, hg]]
      rfl
    · rfl

unseal Rat.ofScientific Rat.mul Rat.inv Rat.add Rat.sub in
/-- Witness for C5: a `SPIN` while already spinning is a no-op, and a
double `SPIN` from the initial context deducts 25 exactly once. -/
theorem C5_spin_idempotent_witness :
    step (GState.spinning, initialContext) GameEvent.spin =
      (GState.spinning, initialContext) ∧
    run (GState.idle, initialContext) [GameEvent.spin, GameEvent.spin] =
      (GState.spinning, deductBet initialContext) ∧
    (deductBet initialContext).balance = 975 :=
  ⟨C5_spin_idempotent.1 (GState.spinning, initialContext) (by decide),
   (C5_spin_idempotent.2.2 initialContext (by decide)).1,
   by decide⟩

end SlotTest

namespace SlotTest

open GameMachine

/-- C6: a winning `SPIN_COMPLETE` enters `celebrating` with the
winnings already credited (balance, `lastWin` and cumulative
`totalWin` all updated by the entry action, before anything else can
happen), and the two exit paths — the 2000 ms timeout and the explicit
`WIN_CELEBRATION_COMPLETE` — produce identical configurations, both
running the same reset (`isSpinning := false`, `canSpin` recomputed,
`reelResults` cleared, balance untouched). -/
theorem C6_celebration_credit :
    (∀ (ctx : GameContext) (r : SpinResult), 0 < r.totalWin →
        step (GState.spinning, ctx) (GameEvent.spinComplete r) =
          (GState.celebrating, addWinnings (updateSpinResult r ctx)) ∧
        (addWinnings (updateSpinResult r ctx)).balance = ctx.balance + r.totalWin ∧
        (addWinnings (updateSpinResult r ctx)).lastWin = r.totalWin ∧
        (addWinnings (updateSpinResult r ctx)).totalWin = ctx.totalWin + r.totalWin) ∧
    (∀ ctx : GameContext,
        step (GState.celebrating, ctx) GameEvent.celebrationTimeout =
          step (GState.celebrating, ctx) GameEvent.winCelebrationComplete ∧
        step (GState.celebrating, ctx) GameEvent.winCelebrationComplete =
          (GState.idle, resetSpinFlags (resetSpinState ctx)) ∧
        (resetSpinFlags (resetSpinState ctx)).balance = ctx.balance ∧
        (resetSpinFlags (resetSpinState ctx)).isSpinning = false ∧
        (resetSpinFlags (resetSpinState ctx)).canSpin =
          decide (ctx.balance ≥ ctx.currentBet) ∧
        (resetSpinFlags (resetSpinState ctx)).reelResults = none) := by
  constructor
  · intro ctx r hr
    have hw : hasWins (updateSpinResult r ctx) := by
      refine ⟨by simp [updateSpinResult], ?_⟩
      intro r' hr'
      simp [updateSpinResult] at hr'
      rw [← hr']
      exact hr
    refine ⟨by simp [step, resolveEvaluating, hw], ?_, ?_, ?_⟩ <;>
      simp [addWinnings, updateSpinResult]
  · intro ctx
    exact ⟨rfl, rfl, rfl, rfl, rfl, rfl⟩

unseal Rat.ofScientific Rat.mul Rat.inv Rat.add Rat.sub in
/-- Witness for C6 with a 5-unit win from the initial context. -/
theorem C6_celebration_credit_witness :
    step (GState.spinning, initialContext)
        (GameEvent.spinComplete { reelResults := [], wins := [], totalWin := 5 }) =
      (GState.celebrating,
        addWinnings (updateSpinResult
          { reelResults := [], wins := [], totalWin := 5 } initialContext)) ∧
    (addWinnings (updateSpinResult
        { reelResults := [], wins := [], totalWin := 5 } initialContext)).balance =
      1005 :=
  ⟨(C6_celebration_credit.1 initialContext
      { reelResults := [], wins := [], totalWin := 5 } (by decide)).1,
   by decide⟩

unseal Rat.ofScientific Rat.mul Rat.inv Rat.add Rat.sub in
/-- C8 (the code lacks the claimed guard): `SET_BET` stores −5 without
clamping, the `SPIN` guard `balance ≥ currentBet` passes (1000 ≥ −5),
and `deductBet` runs with no `currentBet > 0` re-check: the machine
enters `spinning` and the balance becomes 1005 — a deduction of the
negative bet — where the claim requires that no deduction occur. -/
theorem C8_negative_bet_deducts :
    run initConfig [GameEvent.setBet (-5), GameEvent.spin] =
      (GState.spinning,
        { balance := 1005, currentBet := -5, lastWin := 0, totalWin := 0,
          reelResults := none, isSpinning := true, canSpin := false }) ∧
    ((-5 : ℚ) ≤ 0) ∧
    (1005 : ℚ) ≠ 1000 := by
  refine ⟨by decide, by norm_num, by norm_num⟩

end SlotTest

namespace SlotTest

namespace PaylineMachine

/-- Resolving the `evaluationComplete` dispatch never touches
`animationSpeed`. -/
theorem resolveEvaluationComplete_speed (ctx : PaylineContext) :
    (resolveEvaluationComplete ctx).2.animationSpeed = ctx.animationSpeed := by
  unfold resolveEvaluationComplete
  split_ifs <;> rfl

/-- Every step either leaves `animationSpeed` unchanged or is a
handled `SET_ANIMATION_SPEED` that stores the clamped value. -/
theorem pStep_animationSpeed (cfg : PConfig) (e : PaylineEvent) :
    (pStep cfg e).2.animationSpeed = cfg.2.animationSpeed ∨
    ∃ s, e = PaylineEvent.setAnimationSpeed s ∧
      (pStep cfg e).2.animationSpeed = max (1/10) (min 5 s) := by
  obtain ⟨st, ctx⟩ := cfg
  cases st <;> cases e <;>
    first
      | (left; rfl)
      | (left; exact resolveEvaluationComplete_speed _)
      | (right; exact ⟨_, rfl, rfl⟩)

/-- Along every run of the payline machine the speed multiplier stays
inside `[0.1, 5]`. -/
theorem pRun_speed_in_range (events : List PaylineEvent) :
    1/10 ≤ (pRun pInit events).2.animationSpeed ∧
    (pRun pInit events).2.animationSpeed ≤ 5 := by
  suffices h : ∀ cfg : PConfig,
      1/10 ≤ cfg.2.animationSpeed ∧ cfg.2.animationSpeed ≤ 5 →
      1/10 ≤ (pRun cfg events).2.animationSpeed ∧
        (pRun cfg events).2.animationSpeed ≤ 5 by
    refine h pInit ⟨?_, ?_⟩ <;> norm_num [pInit, resetContext, initialPaylineContext]
  induction events with
  | nil => exact fun cfg h => h
  | cons e es ih =>
      intro cfg h
      refine ih (pStep cfg e) ?_
      rcases pStep_animationSpeed cfg e with heq | ⟨s, _, heq⟩
      · rw [heq]; exact h
      · rw [heq]
        constructor
        · exact le_max_left _ _
        · exact max_le (by norm_num) (min_le_left _ _)

end PaylineMachine

open PaylineMachine

unseal Rat.ofScientific Rat.mul Rat.inv Rat.add Rat.sub in
/-- C10 counterexample: a `SET_ANIMATION_SPEED 10` sent while the
machine sits in `singleWinAnimation` is ignored — the speed stays 1,
not the claimed `min 5 (max 0.1 10) = 5`. -/
theorem C10_clamp_counterexample :
    (pRun pInit [PaylineEvent.setWinsAndAnimate [cherryWin],
        PaylineEvent.setAnimationSpeed 10]).1 = PState.singleWinAnimation ∧
    (pRun pInit [PaylineEvent.setWinsAndAnimate [cherryWin],
        PaylineEvent.setAnimationSpeed 10]).2.animationSpeed = 1 ∧
    min 5 (max (1/10) (10 : ℚ)) = 5 ∧
    (1 : ℚ) ≠ 5 := by
  refine ⟨by decide, by decide, by norm_num, by norm_num⟩

/-- C10 (amended): `SET_ANIMATION_SPEED s` is handled only in `idle`,
where the stored speed is `max 0.1 (min 5 s) = min 5 (max 0.1 s)`; in
every other state the event leaves the configuration unchanged; and
along any run the speed stays inside `[0.1, 5]`. -/
theorem C10_speed_clamped :
    (∀ (ctx : PaylineContext) (s : ℚ),
        pStep (PState.idle, ctx) (PaylineEvent.setAnimationSpeed s) =
          (PState.idle, { ctx with animationSpeed := max (1/10) (min 5 s) }) ∧
        max (1/10) (min 5 s) = min 5 (max (1/10) s)) ∧
    (∀ (st : PState) (ctx : PaylineContext) (s : ℚ), st ≠ PState.idle →
        pStep (st, ctx) (PaylineEvent.setAnimationSpeed s) = (st, ctx)) ∧
    (∀ events : List PaylineEvent,
        1/10 ≤ (pRun pInit events).2.animationSpeed ∧
        (pRun pInit events).2.animationSpeed ≤ 5) := by
  refine ⟨fun ctx s => ⟨rfl, ?_⟩, ?_, pRun_speed_in_range⟩
  · rw [max_min_distrib_left]
    congr 1
    exact max_eq_right (by norm_num)
  · intro st ctx s hst
    cases st with
    | idle => exact absurd rfl hst
    | evaluating => rfl
    | singleWinAnimation => rfl
    | showingAllWins => rfl
    | animatingIndividualWins => rfl

/-- Witness for C10: the clamp applied in `idle` at speed 10, and the
ignored event in `evaluating`. -/
theorem C10_speed_clamped_witness :
    pStep (PState.idle, initialPaylineContext)
        (PaylineEvent.setAnimationSpeed 10) =
      (PState.idle,
        { initialPaylineContext with animationSpeed := max (1/10) (min 5 10) }) ∧
    pStep (PState.evaluating, initialPaylineContext)
        (PaylineEvent.setAnimationSpeed 10) =
      (PState.evaluating, initialPaylineContext) :=
  ⟨(C10_speed_clamped.1 initialPaylineContext 10).1,
   C10_speed_clamped.2.1 PState.evaluating initialPaylineContext 10 (by decide)⟩

end SlotTest

namespace SlotTest

open PaylineManager

unseal Rat.ofScientific Rat.mul Rat.inv Rat.add Rat.sub in
/-- C7 counterexample: on the skip path for a two-win list,
`skipAnimation` fires the `onSkipped` callbacks unconditionally and
the machine's return to `idle` makes `handleStateChange` fire the
`onEnd` callbacks as well — both fire, refuting "never both". -/
theorem C7_skip_fires_both :
    (mRun mInit [MAction.setWins [cherryWin, cherryWin],
        MAction.userSkip]).endCount = 1 ∧
    (mRun mInit [MAction.setWins [cherryWin, cherryWin],
        MAction.userSkip]).skippedCount = 1 ∧
    ¬(((mRun mInit [MAction.setWins [cherryWin, cherryWin],
          MAction.userSkip]).endCount = 1 ∧
       (mRun mInit [MAction.setWins [cherryWin, cherryWin],
          MAction.userSkip]).skippedCount = 0) ∨
      ((mRun mInit [MAction.setWins [cherryWin, cherryWin],
          MAction.userSkip]).endCount = 0 ∧
       (mRun mInit [MAction.setWins [cherryWin, cherryWin],
          MAction.userSkip]).skippedCount = 1)) := by
  refine ⟨rfl, rfl, by decide⟩

/-- C7 (amended): with an empty win list neither callback fires; on
the ran-to-completion path of a single win, `onEnd` fires exactly once
and `onSkipped` never; but on the skip path — single win or several —
both `onSkipped` (fired unconditionally by `skipAnimation`) and
`onEnd` (fired by the `idle` branch of `handleStateChange`) fire
exactly once each. -/
theorem C7_callback_exclusivity :
    ((mRun mInit [MAction.setWins []]).startCount = 0 ∧
     (mRun mInit [MAction.setWins []]).endCount = 0 ∧
     (mRun mInit [MAction.setWins []]).skippedCount = 0) ∧
    (∀ w : WinResult,
        (mRun mInit [MAction.setWins [w], MAction.displayDone]).startCount = 1 ∧
        (mRun mInit [MAction.setWins [w], MAction.displayDone]).endCount = 1 ∧
        (mRun mInit [MAction.setWins [w], MAction.displayDone]).skippedCount = 0) ∧
    (∀ w : WinResult,
        (mRun mInit [MAction.setWins [w], MAction.userSkip]).endCount = 1 ∧
        (mRun mInit [MAction.setWins [w], MAction.userSkip]).skippedCount = 1) ∧
    (∀ w1 w2 : WinResult,
        (mRun mInit [MAction.setWins [w1, w2], MAction.userSkip]).endCount = 1 ∧
        (mRun mInit [MAction.setWins [w1, w2], MAction.userSkip]).skippedCount = 1) :=
  ⟨⟨rfl, rfl, rfl⟩, fun _ => ⟨rfl, rfl, rfl⟩, fun _ => ⟨rfl, rfl⟩,
   fun _ _ => ⟨rfl, rfl⟩⟩

end SlotTest

namespace SlotTest

/-- A malformed payline: one position instead of five, coordinates out
of range. -/
def badPayline : PaylineConfig :=
  { id := 99, name := "bad", positions := [⟨7, 9⟩] }

/-- C9 counterexample: the config literal accepts a catalog containing
an invalid payline — `validatePaylineConfig` rejects the payline, yet
constructing the game config from it succeeds unchanged (nothing
invokes the validator at load time), and the error instead surfaces
during a spin as a `TypeError` inside payline evaluation. -/
theorem C9_no_load_time_rejection :
    validatePaylineConfig badPayline = false ∧
    (mkGameConfig [badPayline]).paylines = [badPayline] ∧
    WinEvaluatorV5.evaluatePayline badPayline gridAAAAB = .error "TypeError" := by
  refine ⟨by decide, rfl, by decide⟩

/-- C9 (amended): `validatePaylineConfig` implements exactly the
claimed per-payline check (exactly 5 positions, reel in `[0,5)`, row
in `[0,3)`) and the shipped 20-payline catalog passes it — but the
validator is never invoked at load time: the config constructor
accepts any catalog verbatim. -/
theorem C9_validator_unwired :
    (∀ payline : PaylineConfig,
        validatePaylineConfig payline = true ↔
          (payline.positions.length = 5 ∧
           ∀ pos ∈ payline.positions,
             0 ≤ pos.reel ∧ pos.reel ≤ 4 ∧ 0 ≤ pos.row ∧ pos.row ≤ 2)) ∧
    PAYLINE_CONFIGS.all validatePaylineConfig = true ∧
    (∀ ps : List PaylineConfig, (mkGameConfig ps).paylines = ps) := by
  refine ⟨fun payline => ?_, by decide, fun ps => rfl⟩
  constructor
  · intro hv
    unfold validatePaylineConfig at hv
    split at hv
    · simp at hv
    · rename_i h5
      rw [Decidable.not_not] at h5
      refine ⟨h5, ?_⟩
      intro pos hpos
      have hp := List.all_eq_true.mp hv pos hpos
      simp only [decide_eq_true_eq, Bool.or_eq_true, not_or] at hp
      obtain ⟨⟨⟨h1, h2⟩, h3⟩, h4⟩ := hp
      refine ⟨by omega, by omega, by omega, by omega⟩
  · rintro ⟨h5, hall⟩
    unfold validatePaylineConfig
    rw [if_neg (not_not_intro h5)]
    refine List.all_eq_true.mpr ?_
    intro pos hpos
    obtain ⟨h1, h2, h3, h4⟩ := hall pos hpos
    simp only [decide_eq_true_eq, Bool.or_eq_true, not_or]
    refine ⟨⟨⟨by omega, by omega⟩, by omega⟩, by omega⟩

end SlotTest

namespace SlotTest

namespace WinEvaluatorV5

/-- The containment test is exactly position-set inclusion: the
reel/row comparison of `isWinCompletelyContainedBy` identifies
positions. -/
theorem isWinCompletelyContainedBy_iff {w1 w2 : WinResult} :
    isWinCompletelyContainedBy w1 w2 = true ↔
      ∀ p ∈ w1.positions, p ∈ w2.positions := by
  unfold isWinCompletelyContainedBy
  rw [List.all_eq_true]
  constructor
  · intro h p hp
    have hq := h p hp
    rw [List.any_eq_true] at hq
    obtain ⟨q, hq, hpq⟩ := hq
    simp only [Bool.and_eq_true, beq_iff_eq] at hpq
    have hpq' : p = q := by
      cases p
      cases q
      simp_all
    rw [hpq']
    exact hq
  · intro h p hp
    rw [List.any_eq_true]
    exact ⟨p, h p hp, by simp⟩

/-- A win whose `positions` list carries the position of reel `i` at
index `i` — the shape of every win the evaluator builds, because each
catalog payline stores one position per reel in reel order. -/
def ReelIndexed (w : WinResult) : Prop :=
  ∀ (i : Nat) (pos : Position), w.positions.get? i = some pos →
    pos.reel = (i : Int)

/-- Containment between reel-indexed wins is index-preserving: the
position at index `i` of the smaller win sits at index `i` of the
larger one. -/
theorem contained_get {w1 w3 : WinResult}
    (h1 : ReelIndexed w1) (h3 : ReelIndexed w3)
    (hc : isWinCompletelyContainedBy w1 w3 = true) :
    ∀ (i : Nat) (pos : Position), w1.positions.get? i = some pos →
      w3.positions.get? i = some pos := by
  intro i pos hget
  have hreel := h1 i pos hget
  have hmem3 : pos ∈ w3.positions :=
    isWinCompletelyContainedBy_iff.mp hc pos (List.get?_mem hget)
  obtain ⟨j, hj⟩ := List.mem_iff_get?.mp hmem3
  have hreel' := h3 j pos hj
  have hij : i = j := by
    have : (i : Int) = (j : Int) := by rw [← hreel, hreel']
    exact_mod_cast this
  rw [hij]
  exact hj

/-- Two reel-indexed wins both contained in a third are comparable:
one contains the other. -/
theorem contained_comparable {w1 w2 w3 : WinResult}
    (h1 : ReelIndexed w1) (h2 : ReelIndexed w2) (h3 : ReelIndexed w3)
    (hc1 : isWinCompletelyContainedBy w1 w3 = true)
    (hc2 : isWinCompletelyContainedBy w2 w3 = true) :
    isWinCompletelyContainedBy w1 w2 = true ∨
    isWinCompletelyContainedBy w2 w1 = true := by
  have key : ∀ u v : WinResult, ReelIndexed u → ReelIndexed v →
      isWinCompletelyContainedBy u w3 = true →
      isWinCompletelyContainedBy v w3 = true →
      u.positions.length ≤ v.positions.length →
      isWinCompletelyContainedBy u v = true := by
    intro u v hu hv hcu hcv hle
    rw [isWinCompletelyContainedBy_iff]
    intro p hp
    obtain ⟨i, hi⟩ := List.mem_iff_get?.mp hp
    have hilt : i < u.positions.length := by
      by_contra hge
      rw [List.get?_eq_none.mpr (Nat.le_of_not_lt hge)] at hi
      exact Option.noConfusion hi
    obtain ⟨q, hq⟩ : ∃ q, v.positions.get? i = some q := by
      cases hq : v.positions.get? i with
      | some q => exact ⟨q, rfl⟩
      | none =>
          have := List.get?_eq_none.mp hq
          omega
    have e1 := contained_get hu h3 hcu i p hi
    have e2 := contained_get hv h3 hcv i q hq
    have hpq : p = q := by
      rw [e1] at e2
      exact Option.some.inj e2
    rw [hpq]
    exact List.get?_mem hq
  rcases Nat.le_total w1.positions.length w2.positions.length with hle | hle
  · exact Or.inl (key w1 w2 h1 h2 hc1 hc2 hle)
  · exact Or.inr (key w2 w1 h2 h1 hc2 hc1 hle)

end WinEvaluatorV5

end SlotTest

namespace SlotTest

namespace WinEvaluatorV5

/-- The relation the deduplicated list keeps pairwise: neither win's
position set is contained in the other's. -/
def NoMutualContainment (a b : WinResult) : Prop :=
  ¬ isWinCompletelyContainedBy a b = true ∧
  ¬ isWinCompletelyContainedBy b a = true

/-- The dedup loop maintains an antichain: starting from an antichain
of reel-indexed kept wins and processing reel-indexed candidates, the
result is an antichain.  The one subtle case is a candidate that
strictly contains a kept win: only the first such kept win is spliced
out, but comparability of reel-indexed wins under a common superset
shows no second one can exist. -/
theorem dedupLoop_antichain :
    ∀ (todo kept : List WinResult),
      (∀ w ∈ kept, ReelIndexed w) → (∀ w ∈ todo, ReelIndexed w) →
      kept.Pairwise NoMutualContainment →
      (dedupLoop kept todo).Pairwise NoMutualContainment := by
  intro todo
  induction todo with
  | nil =>
      intro kept _ _ hac
      simpa [dedupLoop] using hac
  | cons cur rest ih =>
      intro kept hk ht hac
      have hcur : ReelIndexed cur := ht cur (List.mem_cons_self cur rest)
      have hrest : ∀ w ∈ rest, ReelIndexed w :=
        fun w hw => ht w (List.mem_cons_of_mem cur hw)
      simp only [dedupLoop]
      split_ifs with hA hB
      · exact ih kept hk hrest hac
      · obtain ⟨a, ha, hpa⟩ := List.any_eq_true.mp hB
        obtain ⟨a', l1, l2, hl1, hpa', hsplit, herase⟩ :=
          @List.exists_of_eraseP _
            (fun k => isWinCompletelyContainedBy k cur) _ _ ha hpa
        rw [herase]
        have hacs := hsplit ▸ hac
        rw [List.pairwise_append] at hacs
        obtain ⟨hp1, hp2, hcross⟩ := hacs
        rw [List.pairwise_cons] at hp2
        obtain ⟨ha'l2, hpl2⟩ := hp2
        have hnotA : ∀ k ∈ kept, ¬ isWinCompletelyContainedBy cur k = true :=
          fun k hkm hck => hA (List.any_eq_true.mpr ⟨k, hkm, hck⟩)
        have hkseq : ∀ w ∈ l1 ++ l2, w ∈ kept := by
          intro w hw
          rw [hsplit]
          rcases List.mem_append.mp hw with h | h
          · exact List.mem_append.mpr (Or.inl h)
          · exact List.mem_append.mpr (Or.inr (List.mem_cons_of_mem _ h))
        have hnewcross : ∀ w ∈ l1 ++ l2, NoMutualContainment w cur := by
          intro w hw
          refine ⟨?_, hnotA w (hkseq w hw)⟩
          intro hwc
          rcases List.mem_append.mp hw with hw1 | hw2
          · exact hl1 w hw1 hwc
          · have hwreel : ReelIndexed w := hk w (hkseq w hw)
            have hareel : ReelIndexed a' := hk a' (by
              rw [hsplit]
              exact List.mem_append.mpr (Or.inr (List.mem_cons_self _ _)))
            rcases contained_comparable hareel hwreel hcur hpa' hwc with h' | h'
            · exact (ha'l2 w hw2).1 h'
            · exact (ha'l2 w hw2).2 h'
        refine ih ((l1 ++ l2) ++ [cur]) ?_ hrest ?_
        · intro w hw
          rcases List.mem_append.mp hw with h | h
          · exact hk w (hkseq w h)
          · rw [List.mem_singleton.mp h]
            exact hcur
        · rw [List.pairwise_append]
          refine ⟨?_, List.pairwise_singleton _ _, ?_⟩
          · rw [List.pairwise_append]
            refine ⟨hp1, hpl2, ?_⟩
            intro x hx y hy
            exact hcross x hx y (List.mem_cons_of_mem _ hy)
          · intro x hx y hy
            rw [List.mem_singleton.mp hy]
            exact hnewcross x hx
      · have hnotA : ∀ k ∈ kept, ¬ isWinCompletelyContainedBy cur k = true :=
          fun k hkm hck => hA (List.any_eq_true.mpr ⟨k, hkm, hck⟩)
        have hnotB : ∀ k ∈ kept, ¬ isWinCompletelyContainedBy k cur = true :=
          fun k hkm hck => hB (List.any_eq_true.mpr ⟨k, hkm, hck⟩)
        refine ih (kept ++ [cur]) ?_ hrest ?_
        · intro w hw
          rcases List.mem_append.mp hw with h | h
          · exact hk w h
          · rw [List.mem_singleton.mp h]
            exact hcur
        · rw [List.pairwise_append]
          refine ⟨hac, List.pairwise_singleton _ _, ?_⟩
          intro x hx y hy
          rw [List.mem_singleton.mp hy]
          exact ⟨hnotB x hx, hnotA x hx⟩

end WinEvaluatorV5

end SlotTest

namespace SlotTest

namespace WinEvaluatorV5

/-- The full dedup pass returns an antichain whenever every candidate
win is reel-indexed. -/
theorem deduplicateOverlappingWins_antichain (wins : List WinResult)
    (h : ∀ w ∈ wins, ReelIndexed w) :
    (deduplicateOverlappingWins wins).Pairwise NoMutualContainment := by
  unfold deduplicateOverlappingWins
  split_ifs with hlen
  · match wins with
    | [] => exact List.Pairwise.nil
    | [w] => exact List.pairwise_singleton _ _
    | a :: b :: l => simp at hlen
  · refine dedupLoop_antichain _ [] (by simp) ?_ List.Pairwise.nil
    intro w hw
    exact h w (List.mem_mergeSort.mp hw)

/-- The per-reel alignment check of a position list starting at reel
`n`: position `i` of the list sits on reel `n + i`. -/
def reelAlignedFrom (n : Nat) : List Position → Bool
  | [] => true
  | p :: ps => (p.reel == (n : Int)) && reelAlignedFrom (n + 1) ps

/-- Alignment pins down the reel of every entry. -/
theorem reelAlignedFrom_get {l : List Position} :
    ∀ {n : Nat}, reelAlignedFrom n l = true →
      ∀ (i : Nat) (pos : Position), l.get? i = some pos →
        pos.reel = ((n + i : Nat) : Int) := by
  induction l with
  | nil =>
      intro n _ i pos hget
      simp at hget
  | cons p ps ih =>
      intro n h i pos hget
      rw [reelAlignedFrom, Bool.and_eq_true, beq_iff_eq] at h
      obtain ⟨hp, hps⟩ := h
      cases i with
      | zero =>
          simp at hget
          rw [← hget]
          simpa using hp
      | succ m =>
          have := ih hps m pos (by simpa using hget)
          rw [this]
          congr 1
          omega

/-- Every payline of the shipped catalog stores one position per reel,
reels 0–4 in order. -/
theorem catalog_reelAligned :
    PAYLINE_CONFIGS.all (fun p => reelAlignedFrom 0 p.positions) = true := by
  decide

/-- Inversion of a successful `evaluatePayline`: the win's positions
are the winning prefix of the payline's positions. -/
theorem evaluatePayline_positions (payline : PaylineConfig) (grid : Grid)
    (w : WinResult) (h : evaluatePayline payline grid = .ok (some w)) :
    ∃ count, w.positions = payline.positions.take count := by
  unfold evaluatePayline at h
  split at h
  · simp at h
  · split at h
    · simp at h
    · split at h
      · simp at h
      · dsimp only at h
        split at h
        · simp at h
        · rw [Except.ok.injEq, Option.some.injEq] at h
          subst h
          exact ⟨_, rfl⟩

/-- Every win built from an aligned payline is reel-indexed. -/
theorem evaluatePayline_reelIndexed (payline : PaylineConfig) (grid : Grid)
    (w : WinResult) (hp : reelAlignedFrom 0 payline.positions = true)
    (h : evaluatePayline payline grid = .ok (some w)) : ReelIndexed w := by
  obtain ⟨count, hwpos⟩ := evaluatePayline_positions payline grid w h
  intro i pos hget
  rw [hwpos] at hget
  have hilt : i < (payline.positions.take count).length := by
    by_contra hge
    rw [List.get?_eq_none.mpr (Nat.le_of_not_lt hge)] at hget
    exact Option.noConfusion hget
  have hic : i < count := by
    rw [List.length_take] at hilt
    omega
  rw [List.get?_take hic] at hget
  simpa using reelAlignedFrom_get hp i pos hget

/-- Every win collected by the evaluation loop comes from evaluating
one of the paylines. -/
theorem collectWins_mem {ps : List PaylineConfig} {g : Grid} :
    ∀ {l : List WinResult}, collectWins ps g = .ok l →
      ∀ w ∈ l, ∃ p ∈ ps, evaluatePayline p g = .ok (some w) := by
  induction ps with
  | nil =>
      intro l h w hw
      unfold collectWins at h
      rw [Except.ok.injEq] at h
      subst h
      simp at hw
  | cons p ps ih =>
      intro l h w hw
      unfold collectWins at h
      split at h
      · simp at h
      · rename_i r heval
        split at h
        · simp at h
        · rename_i rest hrest
          split at h
          · rw [Except.ok.injEq] at h
            subst h
            rcases List.mem_cons.mp hw with rfl | hwtail
            · exact ⟨p, List.mem_cons_self _ _, heval⟩
            · obtain ⟨q, hq, hqe⟩ := ih hrest w hwtail
              exact ⟨q, List.mem_cons_of_mem _ hq, hqe⟩
          · rw [Except.ok.injEq] at h
            subst h
            obtain ⟨q, hq, hqe⟩ := ih hrest w hw
            exact ⟨q, List.mem_cons_of_mem _ hq, hqe⟩

end WinEvaluatorV5

end SlotTest

namespace SlotTest

namespace WinEvaluatorV5

/-- When no containment holds between any two wins in play, the dedup
loop keeps everything. -/
theorem dedupLoop_no_containment :
    ∀ (todo kept : List WinResult),
      (∀ a ∈ kept, ∀ b ∈ todo, NoMutualContainment a b) →
      todo.Pairwise NoMutualContainment →
      dedupLoop kept todo = kept ++ todo := by
  intro todo
  induction todo with
  | nil =>
      intro kept _ _
      simp [dedupLoop]
  | cons cur rest ih =>
      intro kept hcross hpw
      rw [List.pairwise_cons] at hpw
      obtain ⟨hcur_rest, hrest⟩ := hpw
      have hA : kept.any (fun k => isWinCompletelyContainedBy cur k) = false := by
        rw [Bool.eq_false_iff]
        intro hany
        obtain ⟨k, hk, hck⟩ := List.any_eq_true.mp hany
        exact (hcross k hk cur (List.mem_cons_self _ _)).2 hck
      have hB : kept.any (fun k => isWinCompletelyContainedBy k cur) = false := by
        rw [Bool.eq_false_iff]
        intro hany
        obtain ⟨k, hk, hck⟩ := List.any_eq_true.mp hany
        exact (hcross k hk cur (List.mem_cons_self _ _)).1 hck
      simp only [dedupLoop]
      rw [if_neg (by rw [hA]; simp), if_neg (by rw [hB]; simp)]
      rw [ih (kept ++ [cur]) ?_ hrest]
      · simp
      · intro a ha b hb
        rcases List.mem_append.mp ha with h | h
        · exact hcross a h b (List.mem_cons_of_mem _ hb)
        · rw [List.mem_singleton.mp h]
          exact hcur_rest b hb

/-- Wins with pairwise-disjoint non-empty position sets all survive
deduplication. -/
theorem deduplicate_keeps_disjoint (wins : List WinResult)
    (hne : ∀ w ∈ wins, w.positions ≠ [])
    (hdisj : wins.Pairwise (fun a b => ∀ p ∈ a.positions, p ∉ b.positions)) :
    ∀ w ∈ wins, w ∈ deduplicateOverlappingWins wins := by
  intro w hw
  unfold deduplicateOverlappingWins
  split_ifs with hlen
  · exact hw
  · have hsymm : Symmetric (fun a b : WinResult =>
        ∀ p ∈ a.positions, p ∉ b.positions) := by
      intro a b hab p hpb hpa
      exact hab p hpa hpb
    have hpw : (wins.mergeSort (fun a b => decide (b.winAmount ≤ a.winAmount))).Pairwise
        (fun a b => ∀ p ∈ a.positions, p ∉ b.positions) :=
      (List.Perm.pairwise_iff (fun h => hsymm h)
        (List.mergeSort_perm wins _)).mpr hdisj
    have hmem : ∀ x ∈ wins.mergeSort (fun a b => decide (b.winAmount ≤ a.winAmount)),
        x ∈ wins := fun x hx => List.mem_mergeSort.mp hx
    have hNMC : (wins.mergeSort (fun a b => decide (b.winAmount ≤ a.winAmount))).Pairwise
        NoMutualContainment := by
      refine hpw.imp_of_mem ?_
      intro a b ha hb hab
      constructor
      · intro hcont
        obtain ⟨p0, hp0⟩ := List.exists_mem_of_ne_nil _ (hne a (hmem a ha))
        exact hab p0 hp0 (isWinCompletelyContainedBy_iff.mp hcont p0 hp0)
      · intro hcont
        obtain ⟨p0, hp0⟩ := List.exists_mem_of_ne_nil _ (hne b (hmem b hb))
        exact hsymm hab p0 hp0 (isWinCompletelyContainedBy_iff.mp hcont p0 hp0)
    rw [dedupLoop_no_containment _ [] (by simp) hNMC]
    simp only [List.nil_append]
    exact List.mem_mergeSort.mpr hw

end WinEvaluatorV5

namespace WinEvaluatorV5

/-- The dedup loop emits wins in processing order: with a kept list
sorted by amount descending and dominating the remaining candidates,
the output stays sorted by amount descending. -/
theorem dedupLoop_sorted :
    ∀ (todo kept : List WinResult),
      kept.Pairwise (fun a b => b.winAmount ≤ a.winAmount) →
      (∀ k ∈ kept, ∀ t ∈ todo, t.winAmount ≤ k.winAmount) →
      todo.Pairwise (fun a b => b.winAmount ≤ a.winAmount) →
      (dedupLoop kept todo).Pairwise (fun a b => b.winAmount ≤ a.winAmount) := by
  intro todo
  induction todo with
  | nil =>
      intro kept hs _ _
      simpa [dedupLoop] using hs
  | cons cur rest ih =>
      intro kept hs hcross hts
      rw [List.pairwise_cons] at hts
      obtain ⟨hcur_rest, hrest_sorted⟩ := hts
      simp only [dedupLoop]
      split_ifs with hA hB
      · refine ih kept hs ?_ hrest_sorted
        intro k hk t ht
        exact hcross k hk t (List.mem_cons_of_mem _ ht)
      · have herase_sub : ∀ x ∈ kept.eraseP
            (fun k => isWinCompletelyContainedBy k cur), x ∈ kept :=
          fun x hx => List.mem_of_mem_eraseP hx
        refine ih _ ?_ ?_ hrest_sorted
        · rw [List.pairwise_append]
          refine ⟨List.Pairwise.sublist (List.eraseP_sublist _) hs,
            List.pairwise_singleton _ _, ?_⟩
          intro x hx y hy
          rw [List.mem_singleton.mp hy]
          exact hcross x (herase_sub x hx) cur (List.mem_cons_self _ _)
        · intro k hk t ht
          rcases List.mem_append.mp hk with h | h
          · exact hcross k (herase_sub k h) t (List.mem_cons_of_mem _ ht)
          · rw [List.mem_singleton.mp h]
            exact hcur_rest t ht
      · refine ih _ ?_ ?_ hrest_sorted
        · rw [List.pairwise_append]
          refine ⟨hs, List.pairwise_singleton _ _, ?_⟩
          intro x hx y hy
          rw [List.mem_singleton.mp hy]
          exact hcross x hx cur (List.mem_cons_self _ _)
        · intro k hk t ht
          rcases List.mem_append.mp hk with h | h
          · exact hcross k h t (List.mem_cons_of_mem _ ht)
          · rw [List.mem_singleton.mp h]
            exact hcur_rest t ht

/-- Deduplication returns its wins in `winAmount`-descending order. -/
theorem deduplicateOverlappingWins_sorted (wins : List WinResult) :
    (deduplicateOverlappingWins wins).Pairwise
      (fun a b => b.winAmount ≤ a.winAmount) := by
  unfold deduplicateOverlappingWins
  split_ifs with hlen
  · match wins with
    | [] => exact List.Pairwise.nil
    | [w] => exact List.pairwise_singleton _ _
    | a :: b :: l => simp at hlen
  · have hb : (wins.mergeSort
        (fun a b => decide (b.winAmount ≤ a.winAmount))).Pairwise
          (fun a b => decide (b.winAmount ≤ a.winAmount) = true) :=
      List.sorted_mergeSort
        (fun a b c hab hbc => by
          rw [decide_eq_true_eq] at hab hbc ⊢
          exact le_trans hbc hab)
        (fun a b => by
          rcases le_total b.winAmount a.winAmount with h | h
          · simp [h]
          · simp [h])
        wins
    refine dedupLoop_sorted _ [] List.Pairwise.nil (by simp) ?_
    exact hb.imp (fun h => of_decide_eq_true h)

end WinEvaluatorV5

open WinEvaluatorV5

/-- C2: the win evaluator's deduplication output is containment-free —
for every grid, no returned win's position set is a subset of another
returned win's — the output lists wins in `winAmount`-descending
processing order, and wins with pairwise-disjoint non-empty position
sets are all kept. -/
theorem C2_dedup_subset_free :
    (∀ (grid : Grid) (l : List WinResult),
        evaluateWins grid = .ok l → l.Pairwise NoMutualContainment) ∧
    (∀ (grid : Grid) (l : List WinResult),
        evaluateWins grid = .ok l →
        l.Pairwise (fun a b => b.winAmount ≤ a.winAmount)) ∧
    (∀ wins : List WinResult,
        (∀ w ∈ wins, w.positions ≠ []) →
        wins.Pairwise (fun a b => ∀ p ∈ a.positions, p ∉ b.positions) →
        ∀ w ∈ wins, w ∈ deduplicateOverlappingWins wins) := by
  refine ⟨?_, ?_, deduplicate_keeps_disjoint⟩
  · intro grid l h
    unfold evaluateWins at h
    split at h
    · simp at h
    · rename_i allWins hcollect
      rw [Except.ok.injEq] at h
      subst h
      refine deduplicateOverlappingWins_antichain allWins ?_
      intro w hw
      obtain ⟨p, hp, hpe⟩ := collectWins_mem hcollect w hw
      exact evaluatePayline_reelIndexed p grid w
        (List.all_eq_true.mp catalog_reelAligned p hp) hpe
  · intro grid l h
    unfold evaluateWins at h
    split at h
    · simp at h
    · rename_i allWins hcollect
      rw [Except.ok.injEq] at h
      subst h
      exact deduplicateOverlappingWins_sorted allWins

/-- A three-apple top-row win, disjoint from `kiwiBottomWin`. -/
def appleTopWin : WinResult :=
  { payline := 2, symbols := [some .apple, some .apple, some .apple],
    multiplier := 0.5, winAmount := 0.5,
    positions := [⟨0,0⟩, ⟨1,0⟩, ⟨2,0⟩] }

/-- A three-kiwi bottom-row win, disjoint from `appleTopWin`. -/
def kiwiBottomWin : WinResult :=
  { payline := 3, symbols := [some .kiwi, some .kiwi, some .kiwi],
    multiplier := 1.5, winAmount := 1.5,
    positions := [⟨0,2⟩, ⟨1,2⟩, ⟨2,2⟩] }

unseal Rat.ofScientific Rat.mul Rat.inv Rat.add Rat.sub in
/-- Witness for C2: the single-win output on the A,A,A,A,B grid is an
antichain, and two disjoint wins both survive deduplication. -/
theorem C2_dedup_subset_free_witness :
    ([cherryWin] : List WinResult).Pairwise NoMutualContainment ∧
    ([cherryWin] : List WinResult).Pairwise
      (fun a b => b.winAmount ≤ a.winAmount) ∧
    appleTopWin ∈ deduplicateOverlappingWins [appleTopWin, kiwiBottomWin] ∧
    kiwiBottomWin ∈ deduplicateOverlappingWins [appleTopWin, kiwiBottomWin] :=
  ⟨C2_dedup_subset_free.1 gridAAAAB [cherryWin] (by decide),
   C2_dedup_subset_free.2.1 gridAAAAB [cherryWin] (by decide),
   C2_dedup_subset_free.2.2 [appleTopWin, kiwiBottomWin] (by decide)
     (by simp [List.pairwise_cons]; decide) appleTopWin (by simp),
   C2_dedup_subset_free.2.2 [appleTopWin, kiwiBottomWin] (by decide)
     (by simp [List.pairwise_cons]; decide) kiwiBottomWin (by simp)⟩

end SlotTest

